import Mathlib

/-!
Verification of the BazelDeps generator (conan/tools/google/bazeldeps.py).

The generator is a one-shot text producer: it walks a resolved dependency
graph (already computed elsewhere) and writes Bazel BUILD / .bzl files.
We embed it shallowly: the filesystem is a function from a directory path
to its listing (or none when the directory does not exist), the platform
check is an explicit Boolean, file writes are recorded in an output list,
and Python exceptions are an explicit error value carried in the result.
All strings use newline line endings, as does every piece of text the
generator itself produces.
-/

namespace BazelDeps

/-- Python exceptions that the generator can raise: the explicit
ConanException from create_new_local_repository, and the TypeError that
str.startswith raises when handed None as its argument. -/
inductive PyError where
  | typeError : PyError
  | conanException : String → PyError
deriving DecidableEq, Repr

/-- Aggregated cpp_info of a dependency (cpp_info.aggregated_components()). -/
structure CppInfo where
  libs : List String
  includedirs : List String
  defines : List String
  system_libs : List String
  libdirs : List String
deriving DecidableEq, Repr

/-- One node of the resolved dependency graph, with the fields the
generator reads: ref.name, package_folder (None for editable packages),
the aggregated cpp_info, the names of its own requirements
(dependency.dependencies), and options.get_safe("shared"). -/
structure Dependency where
  name : String
  package_folder : Option String
  cpp_info : CppInfo
  dep_names : List String
  shared : Bool
deriving DecidableEq, Repr

/-- The conanfile fields the generator reads: the output folder and the
direct_build / host dependency lists, in graph-provided order. -/
structure Conanfile where
  generators_folder : String
  direct_build : List Dependency
  host : List Dependency
deriving DecidableEq, Repr

/-- The on-disk state seen through os.path.exists / os.listdir: a library
directory either does not exist (none) or has a listing in a fixed order. -/
abbrev FS := String → Option (List String)

/-- Python str.startswith on two strings. -/
def pyStartswith (s pre : String) : Bool :=
  pre.toList.isPrefixOf s.toList

/-- str.replace of every backslash by a forward slash, char by char. -/
def replaceBackslash (l : List Char) : List Char :=
  l.map (fun c => if c = '\\' then '/' else c)

/-- str.lstrip("/"): drop every leading forward slash. -/
def lstripSlash (l : List Char) : List Char :=
  l.dropWhile (fun c => c = '/')

/-- _relativize_path from _get_dependency_buildfile_content.  The base
path is dependency.package_folder, which is None for editable packages;
p.startswith(None) raises TypeError in Python, modelled as an error. -/
def relativize_path (p : String) (base_path : Option String) : Except PyError String :=
  match base_path with
  | none => .error PyError.typeError
  | some base =>
    if pyStartswith p base then
      .ok (String.mk (lstripSlash (replaceBackslash (p.toList.drop base.toList.length))))
    else
      .ok (String.mk (lstripSlash (replaceBackslash p.toList)))

/-- Index of the last dot of a character list, if any. -/
def rfindDot (l : List Char) : Option Nat :=
  match l.reverse.findIdx? (fun c => c = '.') with
  | none => none
  | some j => some (l.length - 1 - j)

/-- os.path.splitext on a bare filename (the names handed to it here come
from os.listdir, so they contain no path separator): split at the last
dot, unless every character before that dot is itself a dot. -/
def splitext (f : String) : String × String :=
  let l := f.toList
  match rfindDot l with
  | none => (f, "")
  | some i =>
    if (l.take i).any (fun c => c ≠ '.') then
      (String.mk (l.take i), String.mk (l.drop i))
    else (f, "")

/-- The name a directory entry is compared against in _get_lib_file_paths:
split off the extension; for the recognized library extensions other than
.lib, strip a leading "lib" from the stem. -/
def matchName (f : String) : String :=
  let ne := splitext f
  if ne.2 = ".so" ∨ ne.2 = ".lib" ∨ ne.2 = ".a" ∨ ne.2 = ".dylib" ∨ ne.2 = ".bc" then
    if ne.2 ≠ ".lib" ∧ pyStartswith ne.1 "lib" then
      String.mk (ne.1.toList.drop 3)
    else ne.1
  else ne.1

/-- The matching convention as the specification words it: for files with
extension .so, .a, .dylib or .bc a leading lib prefix is stripped from the
stem before comparison, while other files (in particular .lib files) are
compared with their stem unchanged. -/
def matchNameSpec (f : String) : String :=
  let ne := splitext f
  if (ne.2 = ".so" ∨ ne.2 = ".a" ∨ ne.2 = ".dylib" ∨ ne.2 = ".bc")
      ∧ pyStartswith ne.1 "lib" then
    String.mk (ne.1.toList.drop 3)
  else ne.1

/-- os.path.join for the POSIX separator (the separator convention does
not affect any property proved below). -/
def pathJoin (a b : String) : String :=
  if b.toList.head? = some '/' then b
  else if a = "" ∨ a.toList.getLast? = some '/' then a ++ b
  else a ++ "/" ++ b

/-- The inner loop of _get_lib_file_paths over one directory listing:
return the joined path of the first entry whose (possibly lib-stripped)
stem equals the library name. -/
def findLibInFiles (libdir : String) (lib : String) : List String → Option String
  | [] => none
  | f :: rest =>
    if lib == matchName f then some (pathJoin libdir f)
    else findLibInFiles libdir lib rest

/-- _get_lib_file_paths: scan the library directories in order; a missing
directory yields a warning and is skipped; the first matching entry is
returned; if no directory matches, a not-found warning is emitted.  The
second component collects the warnings written to the conanfile output. -/
def get_lib_file_paths (fs : FS) (libdirs : List String) (lib : String) :
    Option String × List String :=
  match libdirs with
  | [] => (none, ["The library " ++ lib ++ " cannot be found in the dependency"])
  | libdir :: rest =>
    match fs libdir with
    | none =>
      let r := get_lib_file_paths fs rest lib
      (r.1, ("The library folder doesn't exist: " ++ libdir) :: r.2)
    | some files =>
      match findLibInFiles libdir lib files with
      | some p => (some p, [])
      | none => get_lib_file_paths fs rest lib

/-- The replacement applied to each define before quoting: every double
quote becomes three backslashes followed by a double quote. -/
def escapeDefine (s : String) : String :=
  String.mk ((s.toList.map
    (fun c => if c = '"' then ['\\', '\\', '\\', '"'] else [c])).flatten)

/-- Relativize every include directory against the package folder, in
order, propagating the first error. -/
def relativizeAll (paths : List String) (base : Option String) :
    Except PyError (List String) :=
  match paths with
  | [] => .ok []
  | p :: rest => do
    let r ← relativize_path p base
    let rs ← relativizeAll rest base
    .ok (r :: rs)

/-- Insertion into a Python dict viewed as an ordered association list:
an existing key keeps its position and gets the new value, a new key is
appended at the end. -/
def dictUpsert : List (String × String) → String → String → List (String × String)
  | [], k, v => [(k, v)]
  | (k0, v0) :: rest, k, v =>
    if k0 = k then (k0, v) :: rest
    else (k0, v0) :: dictUpsert rest k v

/-- The libs-dict construction loop: look each logical library up on
disk, relativize the found path against the package folder (which raises
TypeError when the folder is None), and collect the warnings the lookups
emit.  acc is the dict built so far. -/
def resolveLibsAux (fs : FS) (pf : Option String) (libdirs : List String)
    (acc : List (String × String)) :
    List String → Except PyError (List (String × String)) × List String
  | [] => (.ok acc, [])
  | lib :: rest =>
    let r := get_lib_file_paths fs libdirs lib
    match r.1 with
    | none =>
      let rr := resolveLibsAux fs pf libdirs acc rest
      (rr.1, r.2 ++ rr.2)
    | some p =>
      match relativize_path p pf with
      | .error e => (.error e, r.2)
      | .ok rel =>
        let rr := resolveLibsAux fs pf libdirs (dictUpsert acc lib rel) rest
        (rr.1, r.2 ++ rr.2)

/-- The libs dict of _get_dependency_buildfile_content. -/
def resolveLibs (fs : FS) (pf : Option String) (libdirs libs : List String) :
    Except PyError (List (String × String)) × List String :=
  resolveLibsAux fs pf libdirs [] libs

/-- The Jinja template of _get_dependency_buildfile_content rendered with
default whitespace handling: block tags disappear, all surrounding
literal text (indentation before a tag, the newline after it) stays, and
one trailing newline of the template is stripped.  textwrap.dedent has
already normalized the whitespace-only final line of the literal away. -/
def renderDependencyBuildfile (name : String) (libs : List (String × String))
    (headers includes defines linkopts libraryType : String)
    (dependencies : List String) : String :=
  "\nload(\"@rules_cc//cc:defs.bzl\", \"cc_import\", \"cc_library\")\n\n"
  ++ String.join (libs.map (fun lf =>
      "\ncc_import(\n    name = \"" ++ lf.1 ++ "_precompiled\",\n    "
      ++ libraryType ++ " = \"" ++ lf.2 ++ "\"\n)\n"))
  ++ "\n\ncc_library(\n    name = \"" ++ name ++ "\",\n    "
  ++ (if headers = "" then ""
      else "\n    hdrs = glob([" ++ headers ++ "]),\n    ")
  ++ "\n    "
  ++ (if includes = "" then ""
      else "\n    includes = [" ++ includes ++ "],\n    ")
  ++ "\n    "
  ++ (if defines = "" then ""
      else "\n    defines = [" ++ defines ++ "],\n    ")
  ++ "\n    "
  ++ (if linkopts = "" then ""
      else "\n    linkopts = [" ++ linkopts ++ "],\n    ")
  ++ "\n    visibility = [\"//visibility:public\"],\n    "
  ++ (if libs.isEmpty then ""
      else "\n    deps = [\n    "
        ++ String.join (libs.map (fun lf =>
            "\n    \":" ++ lf.1 ++ "_precompiled\",\n    "))
        ++ "\n    "
        ++ String.join (dependencies.map (fun dep =>
            "\n    \"@" ++ dep ++ "\",\n    "))
        ++ "\n    ],\n    ")
  ++ "\n)\n"

/-- _get_dependency_buildfile_content.  Returns the warnings written to
the conanfile output together with either the rendered content (none
standing for the early None return when the aggregated cpp_info has no
libs and no include dirs) or the Python exception that escaped. -/
def getDependencyBuildfileContent (fs : FS) (isWindows : Bool) (d : Dependency) :
    List String × Except PyError (Option String) :=
  let ci := d.cpp_info
  if ci.libs.isEmpty && ci.includedirs.isEmpty then ([], .ok none)
  else
    match relativizeAll ci.includedirs d.package_folder with
    | .error e => ([], .error e)
    | .ok rels =>
      let headers := String.intercalate ", "
        (rels.map (fun r => "\"" ++ r ++ "/**\""))
      let includes := String.intercalate ", "
        (rels.map (fun r => "\"" ++ r ++ "\""))
      let defines := String.intercalate ", "
        (ci.defines.map (fun df => "\"" ++ escapeDefine df ++ "\""))
      let linkopts := String.intercalate ", "
        (ci.system_libs.map (fun s =>
          if isWindows then "\"/DEFAULTLIB:" ++ s ++ "\""
          else "\"-l" ++ s ++ "\""))
      let r := resolveLibs fs d.package_folder ci.libdirs ci.libs
      match r.1 with
      | .error e => (r.2, .error e)
      | .ok libPairs =>
        let libraryType := if d.shared then "shared_library" else "static_library"
        (r.2, .ok (some (renderDependencyBuildfile d.name libPairs headers
          includes defines linkopts libraryType d.dep_names)))

/-- Python truthiness of the content value tested by generate. -/
def contentFalsy : Option String → Bool
  | none => true
  | some s => s == ""

/-- _get_build_dependency_buildfile_content, already formatted. -/
def getBuildDependencyBuildfileContent (name : String) : String :=
  "\nfilegroup(\n    name = \"" ++ name
  ++ "_binaries\",\n    data = glob([\"**\"]),\n    visibility = [\"//visibility:public\"],\n)\n\n"

/-- The path used by _save_dependency_buildfile. -/
def depBuildfilePath (gf : String) (d : Dependency) : String :=
  gf ++ "/" ++ d.name ++ "/BUILD"

/-- _create_new_local_repository: raises ConanException for an editable
package (package_folder is None); otherwise formats the
native.new_local_repository snippet with backslashes normalized. -/
def createNewLocalRepository (d : Dependency) (buildfileName : String) :
    Except PyError String :=
  match d.package_folder with
  | none => .error (PyError.conanException "BazelDeps doesn't support editable packages")
  | some pf =>
    .ok ("\nnative.new_local_repository(\n    name=\"" ++ d.name
      ++ "\",\n    path=\"" ++ String.mk (replaceBackslash pf.toList)
      ++ "\",\n    build_file=\"" ++ String.mk (replaceBackslash buildfileName.toList)
      ++ "\",\n)\n")

/-- str.splitlines(True) for newline-terminated text (every string the
generator produces uses the newline character as its only line break). -/
def splitlinesKeepAux : List Char → List Char → List (List Char)
  | [], acc => if acc.isEmpty then [] else [acc.reverse]
  | c :: rest, acc =>
    if c = '\n' then ('\n' :: acc).reverse :: splitlinesKeepAux rest []
    else splitlinesKeepAux rest (c :: acc)

/-- str.splitlines(True) as used on the joined snippet text. -/
def splitlinesKeep (s : String) : List String :=
  (splitlinesKeepAux s.toList []).map String.mk

/-- _get_main_buildfile_content: join the snippets, indent every line
but the first by four spaces, and wrap the result in the
load_conan_dependencies template; with no snippets the body is pass. -/
def getMainBuildfileContent (local_repositories : List String) : String :=
  let function_content :=
    if local_repositories.isEmpty then "    pass"
    else String.intercalate "    "
      (splitlinesKeep (String.intercalate "\n" local_repositories))
  "\ndef load_conan_dependencies():\n    " ++ function_content ++ "\n"

/-- The observable result of a run of generate (or of one of its loops):
the files written by save in write order, the local_repositories snippet
list, the warnings written to the conanfile output, and the exception
that aborted the run, if any. -/
structure GenState where
  files : List (String × String)
  snippets : List String
  warnings : List String
  error : Option PyError
deriving DecidableEq, Repr

/-- The first loop of generate, over conanfile.dependencies.direct_build:
every build dependency gets a filegroup BUILD file and a repository
snippet; _create_new_local_repository raises for an editable package
(after the BUILD file was already saved). -/
def processBuildDeps (gf : String) : List Dependency → GenState
  | [] => ⟨[], [], [], none⟩
  | d :: rest =>
    let filename := depBuildfilePath gf d
    let content := getBuildDependencyBuildfileContent d.name
    match createNewLocalRepository d filename with
    | .error e => ⟨[(filename, content)], [], [], some e⟩
    | .ok snip =>
      let r := processBuildDeps gf rest
      ⟨(filename, content) :: r.files, snip :: r.snippets, r.warnings, r.error⟩

/-- The second loop of generate, over conanfile.dependencies.host: a
dependency with falsy content is skipped, otherwise its BUILD file is
saved and its repository snippet appended; exceptions abort the loop. -/
def processHostDeps (fs : FS) (isWindows : Bool) (gf : String) :
    List Dependency → GenState
  | [] => ⟨[], [], [], none⟩
  | d :: rest =>
    let c := getDependencyBuildfileContent fs isWindows d
    match c.2 with
    | .error e => ⟨[], [], c.1, some e⟩
    | .ok co =>
      if contentFalsy co then
        let r := processHostDeps fs isWindows gf rest
        ⟨r.files, r.snippets, c.1 ++ r.warnings, r.error⟩
      else
        let content := co.getD ""
        let filename := depBuildfilePath gf d
        match createNewLocalRepository d filename with
        | .error e => ⟨[(filename, content)], [], c.1, some e⟩
        | .ok snip =>
          let r := processHostDeps fs isWindows gf rest
          ⟨(filename, content) :: r.files, snip :: r.snippets,
            c.1 ++ r.warnings, r.error⟩

/-- BazelDeps.generate: both dependency loops followed by
_save_main_buildfiles, which writes the empty aggregate BUILD file and
dependencies.bzl.  An exception in a loop aborts the run, keeping the
files and warnings produced up to that point. -/
def generate (fs : FS) (isWindows : Bool) (c : Conanfile) : GenState :=
  let gf := c.generators_folder
  let b := processBuildDeps gf c.direct_build
  match b.error with
  | some e => ⟨b.files, b.snippets, b.warnings, some e⟩
  | none =>
    let h := processHostDeps fs isWindows gf c.host
    match h.error with
    | some e => ⟨b.files ++ h.files, b.snippets ++ h.snippets,
        b.warnings ++ h.warnings, some e⟩
    | none =>
      let snippets := b.snippets ++ h.snippets
      let content := getMainBuildfileContent snippets
      ⟨b.files ++ h.files
        ++ [(gf ++ "/BUILD", ""), (gf ++ "/dependencies.bzl", content)],
        snippets, b.warnings ++ h.warnings, none⟩

/-- The snippet a build dependency contributes on a successful run. -/
def buildSnippetOf (gf : String) (d : Dependency) : String :=
  ((createNewLocalRepository d (depBuildfilePath gf d)).toOption).getD ""

/-- The snippet a host dependency contributes on a successful run, none
when it is skipped for falsy content. -/
def hostSnippetOf (fs : FS) (isWindows : Bool) (gf : String) (d : Dependency) :
    Option String :=
  match (getDependencyBuildfileContent fs isWindows d).2 with
  | .error _ => none
  | .ok co =>
    if contentFalsy co then none
    else (createNewLocalRepository d (depBuildfilePath gf d)).toOption

/-- Whether a host dependency gets a BUILD file (its content is truthy). -/
def hostKept (fs : FS) (isWindows : Bool) (d : Dependency) : Bool :=
  match (getDependencyBuildfileContent fs isWindows d).2 with
  | .error _ => false
  | .ok co => !(contentFalsy co)

/-- The (path, content) pair a host dependency contributes on a
successful run, none when it is skipped. -/
def hostFileOf (fs : FS) (isWindows : Bool) (gf : String) (d : Dependency) :
    Option (String × String) :=
  match (getDependencyBuildfileContent fs isWindows d).2 with
  | .error _ => none
  | .ok co =>
    if contentFalsy co then none
    else some (depBuildfilePath gf d, co.getD "")

/-- A host dependency whose only library lives in a directory that does
not exist on disk (fixture for C1). -/
def depC1 : Dependency := ⟨"m", some "/p", ⟨["m"], [], [], [], ["missing"]⟩, [], false⟩

/-- Graph with depC1 as its only dependency (fixture for C1). -/
def cfC1 : Conanfile := ⟨"g", [], [depC1]⟩

/-- An editable host dependency (package_folder is None) with an include
directory (fixture for C2). -/
def depC2 : Dependency := ⟨"ed", none, ⟨[], ["inc"], [], [], []⟩, [], false⟩

/-- Graph with depC2 as its only dependency (fixture for C2). -/
def cfC2 : Conanfile := ⟨"g", [], [depC2]⟩

/-- A host dependency with no libs and no include dirs (fixture for C3). -/
def depC3 : Dependency := ⟨"skipped", some "/s", ⟨[], [], [], [], []⟩, [], false⟩

/-- Graph with depC3 as its only dependency (fixture for C3). -/
def cfC3 : Conanfile := ⟨"out", [], [depC3]⟩

/-- Filesystem fixture for C4: one library directory with one archive. -/
def fsC4 : FS := fun d => if d = "/p/lib" then some ["liba.so"] else none

/-- Graph fixture for C4: one build dependency and two host dependencies,
the second of which is skipped for empty content. -/
def cfC4 : Conanfile :=
  ⟨"g", [⟨"toolx", some "/t", ⟨[], [], [], [], []⟩, [], false⟩],
    [⟨"aa", some "/p", ⟨["a"], [], [], [], ["/p/lib"]⟩, [], false⟩,
     ⟨"bb", some "/q", ⟨[], [], [], [], []⟩, [], false⟩]⟩

/-- Graph fixture for C8: one kept host dependency. -/
def cfC8 : Conanfile :=
  ⟨"o8", [], [⟨"h8", some "/p8", ⟨[], ["/p8/inc"], [], [], []⟩, [], false⟩]⟩

/-! ### Generic helper lemmas -/

theorem toList_append (a b : String) : (a ++ b).toList = a.toList ++ b.toList := by
  cases a
  cases b
  rfl

theorem toList_eq_nil_iff (a : String) : a.toList = [] ↔ a = "" := by
  cases a with
  | mk data =>
    constructor
    · intro h
      simp only [String.toList, String.data] at h
      simp [h]
    · intro h
      have h2 : String.mk data = String.mk [] := h
      exact congrArg String.data h2

theorem string_append_ne_empty_right (a b : String) (h : b ≠ "") : a ++ b ≠ "" := by
  intro hab
  apply h
  have h2 : a.toList ++ b.toList = [] := by
    rw [← toList_append, hab]
    rfl
  exact (toList_eq_nil_iff b).mp (List.append_eq_nil.mp h2).2

theorem head?_dropWhile_false (p : Char → Bool) :
    ∀ (l : List Char) (c : Char), (l.dropWhile p).head? = some c → p c = false := by
  intro l
  induction l with
  | nil => intro c h; simp [List.dropWhile] at h
  | cons a l ih =>
    intro c h
    by_cases ha : p a
    · rw [List.dropWhile_cons_of_pos ha] at h
      exact ih c h
    · rw [List.dropWhile_cons_of_neg ha] at h
      simp only [List.head?_cons, Option.some.injEq] at h
      rw [← h]
      exact Bool.eq_false_iff.mpr ha

theorem mem_replaceBackslash {l : List Char} {c : Char} (h : c ∈ replaceBackslash l) :
    c ≠ '\\' := by
  simp only [replaceBackslash, List.mem_map] at h
  obtain ⟨a, _, hfa⟩ := h
  by_cases ha : a = '\\'
  · rw [ha] at hfa
    simp at hfa
    rw [← hfa]
    decide
  · simp [ha] at hfa
    rw [← hfa]
    exact ha

/-! ### Loop structure lemmas -/

theorem processBuildDeps_files_of_ok (gf : String) :
    ∀ deps : List Dependency, (processBuildDeps gf deps).error = none →
      (processBuildDeps gf deps).files
        = deps.map (fun d => (depBuildfilePath gf d,
            getBuildDependencyBuildfileContent d.name)) := by
  intro deps
  induction deps with
  | nil => intro _; rfl
  | cons d rest ih =>
    intro h
    cases hc : createNewLocalRepository d (depBuildfilePath gf d) with
    | error e => simp [processBuildDeps, hc] at h
    | ok snip =>
      simp only [processBuildDeps, hc] at h ⊢
      simp [ih h]

theorem processBuildDeps_snippets_of_ok (gf : String) :
    ∀ deps : List Dependency, (processBuildDeps gf deps).error = none →
      (processBuildDeps gf deps).snippets = deps.map (buildSnippetOf gf) := by
  intro deps
  induction deps with
  | nil => intro _; rfl
  | cons d rest ih =>
    intro h
    cases hc : createNewLocalRepository d (depBuildfilePath gf d) with
    | error e => simp [processBuildDeps, hc] at h
    | ok snip =>
      simp only [processBuildDeps, hc] at h ⊢
      simp [ih h, buildSnippetOf, hc, Except.toOption]

theorem processBuildDeps_length_of_ok (gf : String) :
    ∀ deps : List Dependency, (processBuildDeps gf deps).error = none →
      (processBuildDeps gf deps).files.length
        = (processBuildDeps gf deps).snippets.length := by
  intro deps
  induction deps with
  | nil => intro _; rfl
  | cons d rest ih =>
    intro h
    cases hc : createNewLocalRepository d (depBuildfilePath gf d) with
    | error e => simp [processBuildDeps, hc] at h
    | ok snip =>
      simp only [processBuildDeps, hc] at h ⊢
      simp [ih h]

theorem processHostDeps_files_of_ok (fs : FS) (w : Bool) (gf : String) :
    ∀ deps : List Dependency, (processHostDeps fs w gf deps).error = none →
      (processHostDeps fs w gf deps).files
        = deps.filterMap (hostFileOf fs w gf) := by
  intro deps
  induction deps with
  | nil => intro _; rfl
  | cons d rest ih =>
    intro h
    cases hc : (getDependencyBuildfileContent fs w d).2 with
    | error e => simp [processHostDeps, hc] at h
    | ok co =>
      by_cases hf : contentFalsy co = true
      · simp only [processHostDeps, hc, hf, if_pos] at h ⊢
        simp [hostFileOf, hc, hf, ih h]
      · cases hr : createNewLocalRepository d (depBuildfilePath gf d) with
        | error e => simp [processHostDeps, hc, hf, hr] at h
        | ok snip =>
          have h2 : (processHostDeps fs w gf rest).error = none := by
            simp [processHostDeps, hc, hf, hr] at h
            exact h
          simp [processHostDeps, hc, hf, hr, hostFileOf, ih h2]

theorem processHostDeps_snippets_of_ok (fs : FS) (w : Bool) (gf : String) :
    ∀ deps : List Dependency, (processHostDeps fs w gf deps).error = none →
      (processHostDeps fs w gf deps).snippets
        = deps.filterMap (hostSnippetOf fs w gf) := by
  intro deps
  induction deps with
  | nil => intro _; rfl
  | cons d rest ih =>
    intro h
    cases hc : (getDependencyBuildfileContent fs w d).2 with
    | error e => simp [processHostDeps, hc] at h
    | ok co =>
      by_cases hf : contentFalsy co = true
      · simp only [processHostDeps, hc, hf, if_pos] at h ⊢
        simp [hostSnippetOf, hc, hf, ih h]
      · cases hr : createNewLocalRepository d (depBuildfilePath gf d) with
        | error e => simp [processHostDeps, hc, hf, hr] at h
        | ok snip =>
          have h2 : (processHostDeps fs w gf rest).error = none := by
            simp [processHostDeps, hc, hf, hr] at h
            exact h
          simp [processHostDeps, hc, hf, hr, hostSnippetOf, Except.toOption, ih h2]

theorem processHostDeps_length_of_ok (fs : FS) (w : Bool) (gf : String) :
    ∀ deps : List Dependency, (processHostDeps fs w gf deps).error = none →
      (processHostDeps fs w gf deps).files.length
        = (processHostDeps fs w gf deps).snippets.length := by
  intro deps
  induction deps with
  | nil => intro _; rfl
  | cons d rest ih =>
    intro h
    cases hc : (getDependencyBuildfileContent fs w d).2 with
    | error e => simp [processHostDeps, hc] at h
    | ok co =>
      by_cases hf : contentFalsy co = true
      · simp only [processHostDeps, hc, hf, if_pos] at h ⊢
        exact ih h
      · cases hr : createNewLocalRepository d (depBuildfilePath gf d) with
        | error e => simp [processHostDeps, hc, hf, hr] at h
        | ok snip =>
          have h2 : (processHostDeps fs w gf rest).error = none := by
            simp [processHostDeps, hc, hf, hr] at h
            exact h
          simp [processHostDeps, hc, hf, hr, ih h2]

theorem generate_ok_parts (fs : FS) (w : Bool) (c : Conanfile)
    (h : (generate fs w c).error = none) :
    (processBuildDeps c.generators_folder c.direct_build).error = none
    ∧ (processHostDeps fs w c.generators_folder c.host).error = none := by
  cases hb : (processBuildDeps c.generators_folder c.direct_build).error with
  | some e => simp [generate, hb] at h
  | none =>
    cases hh : (processHostDeps fs w c.generators_folder c.host).error with
    | some e => simp [generate, hb, hh] at h
    | none => exact ⟨rfl, rfl⟩

theorem generate_ok_files (fs : FS) (w : Bool) (c : Conanfile)
    (h : (generate fs w c).error = none) :
    (generate fs w c).files
      = (processBuildDeps c.generators_folder c.direct_build).files
        ++ (processHostDeps fs w c.generators_folder c.host).files
        ++ [(c.generators_folder ++ "/BUILD", ""),
            (c.generators_folder ++ "/dependencies.bzl",
             getMainBuildfileContent
               ((processBuildDeps c.generators_folder c.direct_build).snippets
                ++ (processHostDeps fs w c.generators_folder c.host).snippets))] := by
  obtain ⟨hb, hh⟩ := generate_ok_parts fs w c h
  simp [generate, hb, hh]

theorem generate_ok_snippets (fs : FS) (w : Bool) (c : Conanfile)
    (h : (generate fs w c).error = none) :
    (generate fs w c).snippets
      = (processBuildDeps c.generators_folder c.direct_build).snippets
        ++ (processHostDeps fs w c.generators_folder c.host).snippets := by
  obtain ⟨hb, hh⟩ := generate_ok_parts fs w c h
  simp [generate, hb, hh]

/-! ### Claims -/

/-- C5 (confirmed): the locator performs a linear scan of the directory's
filename list and returns the full path of the first file whose stem
matches the logical library name, where for the extensions .so, .a,
.dylib and .bc a leading lib prefix is stripped from the stem before
comparison and .lib files keep their stem unchanged — the source-level
match (matchName) agrees with the convention as the specification words
it (matchNameSpec). -/
theorem C5_locator_first_match :
    (∀ (libdir lib : String) (files : List String),
      findLibInFiles libdir lib files
        = (files.find? (fun f => lib == matchName f)).map (fun f => pathJoin libdir f))
    ∧ (∀ f : String, matchName f = matchNameSpec f) := by
  constructor
  · intro libdir lib files
    induction files with
    | nil => rfl
    | cons f rest ih =>
      by_cases h : (lib == matchName f) = true
      · simp [findLibInFiles, List.find?, h]
      · simp [findLibInFiles, List.find?, h, ih]
  · intro f
    simp only [matchName, matchNameSpec]
    rcases hs : splitext f with ⟨n, e⟩
    simp only
    by_cases hlib : e = ".lib"
    · subst hlib
      simp
    · by_cases h4 : e = ".so" ∨ e = ".a" ∨ e = ".dylib" ∨ e = ".bc"
      · have h5 : e = ".so" ∨ e = ".lib" ∨ e = ".a" ∨ e = ".dylib" ∨ e = ".bc" := by
          tauto
        by_cases hst : pyStartswith n "lib" = true
        · simp [h4, h5, hlib, hst]
        · simp [h4, h5, hlib, hst]
      · have h5 : ¬(e = ".so" ∨ e = ".lib" ∨ e = ".a" ∨ e = ".dylib" ∨ e = ".bc") := by
          tauto
        simp [h4, h5]

/-- C10 (confirmed): a file whose extension is not one of the recognized
library extensions still matches a logical library name whenever its full
stem equals that name, because the comparison is performed for every
directory entry and only the stripping is conditional on the extension. -/
theorem C10_unrecognized_extension_still_matches
    (f lib libdir : String) (rest : List String)
    (hext : ¬((splitext f).2 = ".so" ∨ (splitext f).2 = ".lib" ∨ (splitext f).2 = ".a"
      ∨ (splitext f).2 = ".dylib" ∨ (splitext f).2 = ".bc"))
    (hstem : (splitext f).1 = lib) :
    findLibInFiles libdir lib (f :: rest) = some (pathJoin libdir f) := by
  have hm : matchName f = lib := by
    simp only [matchName]
    rcases hs : splitext f with ⟨n, e⟩
    rw [hs] at hext hstem
    simp only at hext hstem ⊢
    simp [hext, hstem]
  simp [findLibInFiles, hm]

/-- Witness for C10 at the example of the claim: foo.dll matches the
library name foo. -/
theorem C10_witness :
    findLibInFiles "dir" "foo" ["foo.dll"] = some "dir/foo.dll" := by
  rw [C10_unrecognized_extension_still_matches "foo.dll" "foo" "dir" []
    (by decide) (by decide)]
  rfl

/-- C7 (confirmed): a path that starts with the package folder is emitted
as the remainder after the folder prefix, with backslashes replaced by
forward slashes and leading slashes stripped; a path not under the
package folder is emitted with the same replacement and stripping but
otherwise unchanged; consequently the emitted path never contains a
backslash and never starts with a slash. -/
theorem C7_relativize_path_layout :
    (∀ base rest : String,
      relativize_path (base ++ rest) (some base)
        = .ok (String.mk (lstripSlash (replaceBackslash rest.toList))))
    ∧ (∀ p base : String, ¬ pyStartswith p base = true →
      relativize_path p (some base)
        = .ok (String.mk (lstripSlash (replaceBackslash p.toList))))
    ∧ (∀ p base r : String, relativize_path p (some base) = .ok r →
      (∀ c ∈ r.toList, c ≠ '\\') ∧ ∀ c, r.toList.head? = some c → c ≠ '/') := by
  refine ⟨?_, ?_, ?_⟩
  · intro base rest
    have hpre : pyStartswith (base ++ rest) base = true := by
      simp only [pyStartswith, toList_append]
      exact List.isPrefixOf_iff_prefix.mpr (List.prefix_append _ _)
    have hdrop : (base ++ rest).toList.drop base.toList.length = rest.toList := by
      rw [toList_append]
      exact List.drop_left _ _
    simp [relativize_path, hpre, hdrop]
  · intro p base h
    simp [relativize_path, h]
  · intro p base r h
    have hr : r = String.mk (lstripSlash (replaceBackslash
        (p.toList.drop base.toList.length)))
      ∨ r = String.mk (lstripSlash (replaceBackslash p.toList)) := by
      by_cases hpre : pyStartswith p base = true
      · left
        simp [relativize_path, hpre] at h
        exact h.symm
      · right
        simp [relativize_path, hpre] at h
        exact h.symm
    have main : ∀ l : List Char,
        (∀ c ∈ (String.mk (lstripSlash (replaceBackslash l))).toList, c ≠ '\\')
        ∧ ∀ c, (String.mk (lstripSlash (replaceBackslash l))).toList.head? = some c →
          c ≠ '/' := by
      intro l
      constructor
      · intro c hc
        have : c ∈ replaceBackslash l := List.dropWhile_sublist _ |>.mem hc
        exact mem_replaceBackslash this
      · intro c hc
        have := head?_dropWhile_false (fun c => c = '/') (replaceBackslash l) c hc
        simpa using this
    rcases hr with hr | hr <;> (rw [hr]; exact main _)

/-- Witness for C7: a path under the package folder and a path outside
it, both evaluated concretely. -/
theorem C7_witness :
    relativize_path ("/pkg" ++ "/include") (some "/pkg") = .ok "include"
    ∧ relativize_path "rel\\sub" (some "/pkg") = .ok "rel/sub" := by
  constructor
  · rw [C7_relativize_path_layout.1 "/pkg" "/include"]
    rfl
  · rw [C7_relativize_path_layout.2.1 "rel\\sub" "/pkg" (by decide)]
    rfl

/-- C6 (confirmed): generation is deterministic.  Every input the source
reads — the resolved graph with its iteration order, the directory
listings seen through os.listdir, and the platform.system() check — is an
explicit parameter of the embedding, and two runs on equal inputs return
equal results, so every generated file has identical content. -/
theorem C6_generate_deterministic
    (fs1 fs2 : FS) (w1 w2 : Bool) (c1 c2 : Conanfile)
    (hfs : fs1 = fs2) (hw : w1 = w2) (hc : c1 = c2) :
    generate fs1 w1 c1 = generate fs2 w2 c2 := by
  rw [hfs, hw, hc]

/-- Witness for C6 on a concrete run. -/
theorem C6_witness :
    generate (fun _ => none) false ⟨"g", [], []⟩
      = generate (fun _ => none) false ⟨"g", [], []⟩ :=
  C6_generate_deterministic (fun _ => none) (fun _ => none) false false
    ⟨"g", [], []⟩ ⟨"g", [], []⟩ rfl rfl rfl

/-! ### Success-analysis lemmas: no package folder is missing -/

theorem relativize_path_some_ok (p b : String) :
    ∃ s, relativize_path p (some b) = .ok s := by
  by_cases h : pyStartswith p b = true <;> simp [relativize_path, h]

theorem relativizeAll_some_ok (b : String) :
    ∀ ps : List String, ∃ l, relativizeAll ps (some b) = .ok l := by
  intro ps
  induction ps with
  | nil => exact ⟨[], rfl⟩
  | cons p rest ih =>
    obtain ⟨s, hs⟩ := relativize_path_some_ok p b
    obtain ⟨l, hl⟩ := ih
    refine ⟨s :: l, ?_⟩
    simp only [relativizeAll, hs, hl]
    rfl

theorem resolveLibsAux_some_ok (fs : FS) (b : String) (libdirs : List String) :
    ∀ (libs : List String) (acc : List (String × String)),
      ∃ pairs, (resolveLibsAux fs (some b) libdirs acc libs).1 = .ok pairs := by
  intro libs
  induction libs with
  | nil => intro acc; exact ⟨acc, rfl⟩
  | cons lib rest ih =>
    intro acc
    cases hlk : (get_lib_file_paths fs libdirs lib).1 with
    | none =>
      obtain ⟨pairs, hp⟩ := ih acc
      exact ⟨pairs, by simp [resolveLibsAux, hlk, hp]⟩
    | some p =>
      obtain ⟨s, hs⟩ := relativize_path_some_ok p b
      obtain ⟨pairs, hp⟩ := ih (dictUpsert acc lib s)
      exact ⟨pairs, by simp [resolveLibsAux, hlk, hs, hp]⟩

theorem content_some_ok (fs : FS) (w : Bool) (d : Dependency) (b : String)
    (hpf : d.package_folder = some b) :
    ∃ co, (getDependencyBuildfileContent fs w d).2 = .ok co := by
  by_cases he : (d.cpp_info.libs.isEmpty && d.cpp_info.includedirs.isEmpty) = true
  · exact ⟨none, by simp [getDependencyBuildfileContent, he]⟩
  · obtain ⟨rels, hr⟩ := relativizeAll_some_ok b d.cpp_info.includedirs
    obtain ⟨pairs, hp⟩ :=
      resolveLibsAux_some_ok fs b d.cpp_info.libdirs d.cpp_info.libs []
    cases hco : (getDependencyBuildfileContent fs w d).2 with
    | ok co => exact ⟨co, rfl⟩
    | error e =>
      exfalso
      simp [getDependencyBuildfileContent, he, hpf, hr, resolveLibs, hp] at hco

theorem processBuildDeps_ok_of_pf (gf : String) :
    ∀ deps : List Dependency, (∀ d ∈ deps, d.package_folder ≠ none) →
      (processBuildDeps gf deps).error = none := by
  intro deps
  induction deps with
  | nil => intro _; rfl
  | cons d rest ih =>
    intro h
    obtain ⟨b, hb⟩ := Option.ne_none_iff_exists'.mp (h d (List.mem_cons_self d rest))
    have hcr : createNewLocalRepository d (depBuildfilePath gf d)
        = .ok ("\nnative.new_local_repository(\n    name=\"" ++ d.name
          ++ "\",\n    path=\"" ++ String.mk (replaceBackslash b.toList)
          ++ "\",\n    build_file=\""
          ++ String.mk (replaceBackslash (depBuildfilePath gf d).toList)
          ++ "\",\n)\n") := by
      simp [createNewLocalRepository, hb]
    have hrest := ih (fun d hd => h d (List.mem_cons_of_mem _ hd))
    simp [processBuildDeps, hcr, hrest]

theorem processHostDeps_ok_of_pf (fs : FS) (w : Bool) (gf : String) :
    ∀ deps : List Dependency, (∀ d ∈ deps, d.package_folder ≠ none) →
      (processHostDeps fs w gf deps).error = none := by
  intro deps
  induction deps with
  | nil => intro _; rfl
  | cons d rest ih =>
    intro h
    obtain ⟨b, hb⟩ := Option.ne_none_iff_exists'.mp (h d (List.mem_cons_self d rest))
    obtain ⟨co, hco⟩ := content_some_ok fs w d b hb
    have hrest := ih (fun d hd => h d (List.mem_cons_of_mem _ hd))
    by_cases hf : contentFalsy co = true
    · simp [processHostDeps, hco, hf, hrest]
    · have hcr : createNewLocalRepository d (depBuildfilePath gf d)
          = .ok ("\nnative.new_local_repository(\n    name=\"" ++ d.name
            ++ "\",\n    path=\"" ++ String.mk (replaceBackslash b.toList)
            ++ "\",\n    build_file=\""
            ++ String.mk (replaceBackslash (depBuildfilePath gf d).toList)
            ++ "\",\n)\n") := by
        simp [createNewLocalRepository, hb]
      simp [processHostDeps, hco, hf, hcr, hrest]

/-- C1 (corrected): a library directory that does not exist on disk does
not make generation raise.  The locator emits a warning for the missing
directory and continues with the remaining directories, and a run in
which every dependency has a package folder finishes without an
exception no matter which directories exist. -/
theorem C1_missing_libdir_warns_and_continues :
    (∀ (fs : FS) (libdir lib : String) (rest : List String), fs libdir = none →
      get_lib_file_paths fs (libdir :: rest) lib
        = ((get_lib_file_paths fs rest lib).1,
           ("The library folder doesn't exist: " ++ libdir)
             :: (get_lib_file_paths fs rest lib).2))
    ∧ (∀ (fs : FS) (w : Bool) (c : Conanfile),
        (∀ d ∈ c.direct_build, d.package_folder ≠ none) →
        (∀ d ∈ c.host, d.package_folder ≠ none) →
        (generate fs w c).error = none) := by
  constructor
  · intro fs libdir lib rest h
    simp [get_lib_file_paths, h]
  · intro fs w c hbuild hhost
    have hb := processBuildDeps_ok_of_pf c.generators_folder c.direct_build hbuild
    have hh := processHostDeps_ok_of_pf fs w c.generators_folder c.host hhost
    simp [generate, hb, hh]

/-- Counterexample to C1 as stated: the graph cfC1 lists the missing
directory "missing" among its libdirs, yet generation completes without
raising, leaving only the two locator warnings. -/
theorem C1_counterexample :
    (generate (fun _ => none) false cfC1).error = none
    ∧ (generate (fun _ => none) false cfC1).warnings
        = ["The library folder doesn't exist: missing",
           "The library m cannot be found in the dependency"] := by
  constructor <;> rfl

/-- Witness for C1: both parts applied at concrete inputs. -/
theorem C1_witness :
    get_lib_file_paths (fun _ => none) ["gone"] "z"
      = (none, ["The library folder doesn't exist: gone",
                "The library z cannot be found in the dependency"])
    ∧ (generate (fun _ => none) false
        ⟨"g2", [], [⟨"n", some "/p", ⟨[], ["i"], [], [], []⟩, [], false⟩]⟩).error
      = none := by
  constructor
  · rw [C1_missing_libdir_warns_and_continues.1 (fun _ => none) "gone" "z" [] rfl]
    rfl
  · exact C1_missing_libdir_warns_and_continues.2 (fun _ => none) false
      ⟨"g2", [], [⟨"n", some "/p", ⟨[], ["i"], [], [], []⟩, [], false⟩]⟩
      (by intro d hd; cases hd) (by decide)

/-! ### Error-analysis lemmas: editable packages -/

theorem renderDependencyBuildfile_ne_empty (name : String)
    (libs : List (String × String)) (headers includes defines linkopts
    libraryType : String) (dependencies : List String) :
    renderDependencyBuildfile name libs headers includes defines linkopts
      libraryType dependencies ≠ "" := by
  unfold renderDependencyBuildfile
  exact string_append_ne_empty_right _ _ (by decide)

theorem contentFalsy_of_render (s : String) (h : s ≠ "") :
    contentFalsy (some s) = false := by
  simp only [contentFalsy]
  exact beq_eq_false_iff_ne.mpr h

theorem content_editable_cases (fs : FS) (w : Bool) (d : Dependency)
    (hpf : d.package_folder = none)
    (hne : d.cpp_info.libs ≠ [] ∨ d.cpp_info.includedirs ≠ []) :
    (∃ e, (getDependencyBuildfileContent fs w d).2 = .error e)
    ∨ ∃ s, (getDependencyBuildfileContent fs w d).2 = .ok (some s) ∧ s ≠ "" := by
  have hempty : (d.cpp_info.libs.isEmpty && d.cpp_info.includedirs.isEmpty) = false := by
    cases hb : (d.cpp_info.libs.isEmpty && d.cpp_info.includedirs.isEmpty) with
    | false => rfl
    | true =>
      exfalso
      rw [Bool.and_eq_true, List.isEmpty_iff, List.isEmpty_iff] at hb
      tauto
  cases hinc : d.cpp_info.includedirs with
  | cons p ps =>
    left
    refine ⟨PyError.typeError, ?_⟩
    have hra : relativizeAll (p :: ps) none = .error PyError.typeError := rfl
    simp [getDependencyBuildfileContent, hempty, hpf, hinc, hra]
  | nil =>
    have hlibs : d.cpp_info.libs ≠ [] := by
      rcases hne with h | h
      · exact h
      · exact absurd hinc h
    cases hres : (resolveLibs fs none d.cpp_info.libdirs d.cpp_info.libs).1 with
    | error e =>
      left
      refine ⟨e, ?_⟩
      simp [getDependencyBuildfileContent, hempty, hlibs, hpf, hinc,
        relativizeAll, hres]
    | ok pairs =>
      right
      have hco : (getDependencyBuildfileContent fs w d).2
          = .ok (some (renderDependencyBuildfile d.name pairs
            (String.intercalate ", " ([] : List String))
            (String.intercalate ", " ([] : List String))
            (String.intercalate ", "
              (d.cpp_info.defines.map (fun df => "\"" ++ escapeDefine df ++ "\"")))
            (String.intercalate ", " (d.cpp_info.system_libs.map (fun s =>
              if w then "\"/DEFAULTLIB:" ++ s ++ "\"" else "\"-l" ++ s ++ "\"")))
            (if d.shared then "shared_library" else "static_library")
            d.dep_names)) := by
        simp [getDependencyBuildfileContent, hempty, hlibs, hpf, hinc,
          relativizeAll, hres]
      exact ⟨_, hco, renderDependencyBuildfile_ne_empty _ _ _ _ _ _ _ _⟩

theorem processHostDeps_editable_head (fs : FS) (w : Bool) (gf : String)
    (d : Dependency) (rest : List Dependency)
    (hpf : d.package_folder = none)
    (hne : d.cpp_info.libs ≠ [] ∨ d.cpp_info.includedirs ≠ []) :
    (processHostDeps fs w gf (d :: rest)).error ≠ none := by
  rcases content_editable_cases fs w d hpf hne with ⟨e, he⟩ | ⟨s, hs, hsne⟩
  · simp [processHostDeps, he]
  · have hf := contentFalsy_of_render s hsne
    have hcr : createNewLocalRepository d (depBuildfilePath gf d)
        = .error (PyError.conanException "BazelDeps doesn't support editable packages") := by
      simp [createNewLocalRepository, hpf]
    simp [processHostDeps, hs, hf, hcr]

theorem processHostDeps_editable_mem (fs : FS) (w : Bool) (gf : String) :
    ∀ (l : List Dependency) (d : Dependency), d ∈ l →
      d.package_folder = none →
      (d.cpp_info.libs ≠ [] ∨ d.cpp_info.includedirs ≠ []) →
      (processHostDeps fs w gf l).error ≠ none := by
  intro l
  induction l with
  | nil => intro d hd; cases hd
  | cons p rest ih =>
    intro d hd hpf hne
    rcases List.mem_cons.mp hd with rfl | hdr
    · exact processHostDeps_editable_head fs w gf d rest hpf hne
    · cases hc : (getDependencyBuildfileContent fs w p).2 with
      | error e => simp [processHostDeps, hc]
      | ok co =>
        have htail := ih d hdr hpf hne
        by_cases hf : contentFalsy co = true
        · simp only [processHostDeps, hc, hf, if_pos]
          exact htail
        · cases hr : createNewLocalRepository p (depBuildfilePath gf p) with
          | error e => simp [processHostDeps, hc, hf, hr]
          | ok snip =>
            simp only [processHostDeps, hc, hf, Bool.false_eq_true, if_neg, hr]
            exact htail

theorem resolveLibsAux_all_unresolved (fs : FS) (pf : Option String)
    (libdirs : List String) :
    ∀ (libs : List String) (acc : List (String × String)),
      (∀ lib ∈ libs, (get_lib_file_paths fs libdirs lib).1 = none) →
      (resolveLibsAux fs pf libdirs acc libs).1 = .ok acc := by
  intro libs
  induction libs with
  | nil => intro acc _; rfl
  | cons lib rest ih =>
    intro acc h
    have hlk := h lib (List.mem_cons_self lib rest)
    simp [resolveLibsAux, hlk,
      ih acc (fun l hl => h l (List.mem_cons_of_mem _ hl))]

theorem resolveLibsAux_first_resolved (fs : FS) (libdirs : List String) :
    ∀ (libs : List String) (acc : List (String × String)),
      (∃ lib ∈ libs, (get_lib_file_paths fs libdirs lib).1 ≠ none) →
      (resolveLibsAux fs none libdirs acc libs).1 = .error PyError.typeError := by
  intro libs
  induction libs with
  | nil =>
    intro acc h
    obtain ⟨l, hl, _⟩ := h
    cases hl
  | cons lib rest ih =>
    intro acc h
    cases hlk : (get_lib_file_paths fs libdirs lib).1 with
    | some p =>
      have hrel : relativize_path p none = .error PyError.typeError := rfl
      simp [resolveLibsAux, hlk, hrel]
    | none =>
      obtain ⟨l, hl, hne⟩ := h
      rcases List.mem_cons.mp hl with rfl | hlr
      · exact absurd hlk hne
      · simp only [resolveLibsAux, hlk]
        exact ih acc ⟨l, hlr, hne⟩

theorem content_editable_typeError_includedirs (fs : FS) (w : Bool)
    (d : Dependency) (hpf : d.package_folder = none)
    (hinc : d.cpp_info.includedirs ≠ []) :
    (getDependencyBuildfileContent fs w d).2 = .error PyError.typeError := by
  cases hi : d.cpp_info.includedirs with
  | nil => exact absurd hi hinc
  | cons p ps =>
    have hra : relativizeAll (p :: ps) none = .error PyError.typeError := rfl
    simp [getDependencyBuildfileContent, hi, hpf, hra]

theorem content_editable_typeError_resolved (fs : FS) (w : Bool)
    (d : Dependency) (hpf : d.package_folder = none)
    (hinc : d.cpp_info.includedirs = [])
    (hex : ∃ lib ∈ d.cpp_info.libs,
      (get_lib_file_paths fs d.cpp_info.libdirs lib).1 ≠ none) :
    (getDependencyBuildfileContent fs w d).2 = .error PyError.typeError := by
  have hlibs : d.cpp_info.libs ≠ [] := by
    obtain ⟨l, hl, _⟩ := hex
    intro hn
    rw [hn] at hl
    cases hl
  have hres := resolveLibsAux_first_resolved fs d.cpp_info.libdirs
    d.cpp_info.libs [] hex
  simp [getDependencyBuildfileContent, hlibs, hpf, hinc, relativizeAll,
    resolveLibs, hres]

/-- C2 (corrected): a host dependency with truthy content (its aggregated
cpp_info has libs or include dirs) whose package_folder is None makes
generate raise before its repository-registration snippet is produced.
The exception is determined by a complete case split: when the dependency
has include dirs, or when one of its listed libraries resolves to a file,
the content renderer relativizes a path against the missing package
folder and str.startswith(None) raises TypeError; only when no include
dirs exist and none of its listed libraries resolves does control reach
_create_new_local_repository, which raises its ConanException. -/
theorem C2_editable_raises :
    (∀ (fs : FS) (w : Bool) (c : Conanfile) (d : Dependency),
      d ∈ c.host → d.package_folder = none →
      (d.cpp_info.libs ≠ [] ∨ d.cpp_info.includedirs ≠ []) →
      (generate fs w c).error ≠ none)
    ∧ (∀ (fs : FS) (w : Bool) (gf : String) (d : Dependency)
        (rest : List Dependency),
      d.package_folder = none → d.cpp_info.includedirs ≠ [] →
      (processHostDeps fs w gf (d :: rest)).error = some PyError.typeError)
    ∧ (∀ (fs : FS) (w : Bool) (gf : String) (d : Dependency)
        (rest : List Dependency),
      d.package_folder = none → d.cpp_info.includedirs = [] →
      (∃ lib ∈ d.cpp_info.libs,
        (get_lib_file_paths fs d.cpp_info.libdirs lib).1 ≠ none) →
      (processHostDeps fs w gf (d :: rest)).error = some PyError.typeError)
    ∧ (∀ (fs : FS) (w : Bool) (gf : String) (d : Dependency)
        (rest : List Dependency),
      d.package_folder = none → d.cpp_info.includedirs = [] →
      d.cpp_info.libs ≠ [] →
      (∀ lib ∈ d.cpp_info.libs,
        (get_lib_file_paths fs d.cpp_info.libdirs lib).1 = none) →
      (processHostDeps fs w gf (d :: rest)).error
        = some (PyError.conanException "BazelDeps doesn't support editable packages")) := by
  refine ⟨?_, ?_, ?_, ?_⟩
  · intro fs w c d hd hpf hne
    cases hb : (processBuildDeps c.generators_folder c.direct_build).error with
    | some e => simp [generate, hb]
    | none =>
      cases hh : (processHostDeps fs w c.generators_folder c.host).error with
      | some e => simp [generate, hb, hh]
      | none =>
        exact absurd hh (processHostDeps_editable_mem fs w c.generators_folder
          c.host d hd hpf hne)
  · intro fs w gf d rest hpf hinc
    have hco := content_editable_typeError_includedirs fs w d hpf hinc
    simp [processHostDeps, hco]
  · intro fs w gf d rest hpf hinc hex
    have hco := content_editable_typeError_resolved fs w d hpf hinc hex
    simp [processHostDeps, hco]
  · intro fs w gf d rest hpf hinc hlibs hnone
    have hempty : (d.cpp_info.libs.isEmpty && d.cpp_info.includedirs.isEmpty) = false := by
      cases hl : d.cpp_info.libs with
      | nil => exact absurd hl hlibs
      | cons a l => simp [hl]
    have hres := resolveLibsAux_all_unresolved fs none d.cpp_info.libdirs
      d.cpp_info.libs [] hnone
    have hco : (getDependencyBuildfileContent fs w d).2
        = .ok (some (renderDependencyBuildfile d.name []
          (String.intercalate ", " ([] : List String))
          (String.intercalate ", " ([] : List String))
          (String.intercalate ", "
            (d.cpp_info.defines.map (fun df => "\"" ++ escapeDefine df ++ "\"")))
          (String.intercalate ", " (d.cpp_info.system_libs.map (fun s =>
            if w then "\"/DEFAULTLIB:" ++ s ++ "\"" else "\"-l" ++ s ++ "\"")))
          (if d.shared then "shared_library" else "static_library") d.dep_names)) := by
      simp [getDependencyBuildfileContent, hempty, hlibs, hpf, hinc, relativizeAll,
        resolveLibs, hres]
    have hf := contentFalsy_of_render _ (renderDependencyBuildfile_ne_empty d.name []
      (String.intercalate ", " ([] : List String))
      (String.intercalate ", " ([] : List String))
      (String.intercalate ", "
        (d.cpp_info.defines.map (fun df => "\"" ++ escapeDefine df ++ "\"")))
      (String.intercalate ", " (d.cpp_info.system_libs.map (fun s =>
        if w then "\"/DEFAULTLIB:" ++ s ++ "\"" else "\"-l" ++ s ++ "\"")))
      (if d.shared then "shared_library" else "static_library") d.dep_names)
    have hcr : createNewLocalRepository d (depBuildfilePath gf d)
        = .error (PyError.conanException "BazelDeps doesn't support editable packages") := by
      simp [createNewLocalRepository, hpf]
    simp [processHostDeps, hco, hf, hcr]

/-- Counterexample to C2 as stated: for the editable dependency depC2,
which has an include directory, the exception generate raises is the
TypeError from relativizing the include path against the missing package
folder, not a ConanException. -/
theorem C2_counterexample :
    (generate (fun _ => none) false cfC2).error = some PyError.typeError := by
  rfl

/-- Witness for C2: all four parts applied at concrete inputs — a
content-producing editable dependency makes generate raise; an editable
dependency with an include dir raises TypeError; one whose library
resolves on disk raises TypeError; one with no include dirs and no
resolvable library raises exactly the ConanException. -/
theorem C2_witness :
    (generate (fun _ => none) false
      ⟨"g", [], [⟨"ed2", none, ⟨["l"], [], [], [], []⟩, [], false⟩]⟩).error ≠ none
    ∧ (processHostDeps (fun _ => none) false "g"
        [⟨"ed4", none, ⟨[], ["i"], [], [], []⟩, [], false⟩]).error
      = some PyError.typeError
    ∧ (processHostDeps (fun p => if p = "ld" then some ["libz.so"] else none)
        false "g" [⟨"ed5", none, ⟨["z"], [], [], [], ["ld"]⟩, [], false⟩]).error
      = some PyError.typeError
    ∧ (processHostDeps (fun _ => none) false "g"
        [⟨"ed3", none, ⟨["l"], [], [], [], ["dir"]⟩, [], false⟩]).error
      = some (PyError.conanException "BazelDeps doesn't support editable packages") := by
  refine ⟨?_, ?_, ?_, ?_⟩
  · exact C2_editable_raises.1 (fun _ => none) false
      ⟨"g", [], [⟨"ed2", none, ⟨["l"], [], [], [], []⟩, [], false⟩]⟩
      ⟨"ed2", none, ⟨["l"], [], [], [], []⟩, [], false⟩
      (by simp) rfl (by simp)
  · exact C2_editable_raises.2.1 (fun _ => none) false "g"
      ⟨"ed4", none, ⟨[], ["i"], [], [], []⟩, [], false⟩ [] rfl (by simp)
  · exact C2_editable_raises.2.2.1
      (fun p => if p = "ld" then some ["libz.so"] else none) false "g"
      ⟨"ed5", none, ⟨["z"], [], [], [], ["ld"]⟩, [], false⟩ [] rfl rfl
      ⟨"z", by simp, by decide⟩
  · exact C2_editable_raises.2.2.2 (fun _ => none) false "g"
      ⟨"ed3", none, ⟨["l"], [], [], [], ["dir"]⟩, [], false⟩ []
      rfl rfl (by simp) (by decide)

/-! ### Skip lemmas -/

theorem processHostDeps_skip (fs : FS) (w : Bool) (gf : String)
    (d : Dependency) (rest : List Dependency)
    (h1 : d.cpp_info.libs = []) (h2 : d.cpp_info.includedirs = []) :
    processHostDeps fs w gf (d :: rest) = processHostDeps fs w gf rest := by
  have hc : getDependencyBuildfileContent fs w d = ([], .ok none) := by
    simp [getDependencyBuildfileContent, h1, h2]
  have hc2 : (getDependencyBuildfileContent fs w d).2 = .ok none := by
    rw [hc]
  have hc1 : (getDependencyBuildfileContent fs w d).1 = [] := by
    rw [hc]
  simp [processHostDeps, hc2, hc1, contentFalsy]

theorem processHostDeps_cons_congr (fs : FS) (w : Bool) (gf : String)
    (p : Dependency) (l1 l2 : List Dependency)
    (h : processHostDeps fs w gf l1 = processHostDeps fs w gf l2) :
    processHostDeps fs w gf (p :: l1) = processHostDeps fs w gf (p :: l2) := by
  simp only [processHostDeps]
  rw [h]

/-- C9 (confirmed): a host dependency whose aggregated cpp_info has an
empty libs list and an empty includedirs list is skipped entirely: the
run with it in the host list is identical — same files, same snippets,
same warnings, no error — to the run without it. -/
theorem C9_empty_cppinfo_dependency_skipped (fs : FS) (w : Bool)
    (gf : String) (bd : List Dependency) (pre post : List Dependency)
    (d : Dependency)
    (h1 : d.cpp_info.libs = []) (h2 : d.cpp_info.includedirs = []) :
    generate fs w ⟨gf, bd, pre ++ d :: post⟩ = generate fs w ⟨gf, bd, pre ++ post⟩ := by
  have hhost : processHostDeps fs w gf (pre ++ d :: post)
      = processHostDeps fs w gf (pre ++ post) := by
    induction pre with
    | nil => exact processHostDeps_skip fs w gf d post h1 h2
    | cons p ps ih => exact processHostDeps_cons_congr fs w gf p _ _ ih
  simp only [generate]
  rw [hhost]

/-- Witness for C9 on a concrete graph. -/
theorem C9_witness :
    generate (fun _ => none) false ⟨"g9", [],
        [⟨"kept", some "/k", ⟨[], ["/k/i"], [], [], []⟩, [], false⟩,
         ⟨"empty", some "/e", ⟨[], [], [], [], []⟩, [], false⟩]⟩
      = generate (fun _ => none) false ⟨"g9", [],
        [⟨"kept", some "/k", ⟨[], ["/k/i"], [], [], []⟩, [], false⟩]⟩ :=
  C9_empty_cppinfo_dependency_skipped (fun _ => none) false "g9" []
    [⟨"kept", some "/k", ⟨[], ["/k/i"], [], [], []⟩, [], false⟩] []
    ⟨"empty", some "/e", ⟨[], [], [], [], []⟩, [], false⟩ rfl rfl

/-- C4 (confirmed): generate iterates the direct build-time list and then
the host-time list, each once in the order the graph provides; the
snippet list of a successful run is the per-dependency snippet of every
build dependency (one each, via List.map) followed by the snippet of
every non-skipped host dependency (via List.filterMap), in exactly that
visit order. -/
theorem C4_snippets_in_visit_order (fs : FS) (w : Bool) (c : Conanfile)
    (h : (generate fs w c).error = none) :
    (generate fs w c).snippets
      = c.direct_build.map (buildSnippetOf c.generators_folder)
        ++ c.host.filterMap (hostSnippetOf fs w c.generators_folder) := by
  obtain ⟨hb, hh⟩ := generate_ok_parts fs w c h
  rw [generate_ok_snippets fs w c h,
    processBuildDeps_snippets_of_ok c.generators_folder c.direct_build hb,
    processHostDeps_snippets_of_ok fs w c.generators_folder c.host hh]

/-- Witness for C4 on a run with one build dependency, one kept host
dependency and one skipped host dependency. -/
theorem C4_witness :
    (generate fsC4 false cfC4).snippets
      = cfC4.direct_build.map (buildSnippetOf "g")
        ++ cfC4.host.filterMap (hostSnippetOf fsC4 false "g") :=
  C4_snippets_in_visit_order fsC4 false cfC4 (by rfl)

/-- The per-dependency file paths of kept host dependencies. -/
theorem filterMap_hostFileOf_fst (fs : FS) (w : Bool) (gf : String) :
    ∀ deps : List Dependency,
      (deps.filterMap (hostFileOf fs w gf)).map Prod.fst
        = (deps.filter (hostKept fs w)).map (depBuildfilePath gf) := by
  intro deps
  induction deps with
  | nil => rfl
  | cons d rest ih =>
    cases hc : (getDependencyBuildfileContent fs w d).2 with
    | error e => simp [hostFileOf, hostKept, hc, ih]
    | ok co =>
      by_cases hf : contentFalsy co = true
      · simp [hostFileOf, hostKept, hc, hf, ih]
      · simp [hostFileOf, hostKept, hc, hf, ih]

/-- C3 (corrected): on a successful run the per-dependency BUILD files
are one per build dependency and one per kept host dependency — host
dependencies with falsy content get none — and every such file sits at
<generators_folder>/<dependency ref name>/BUILD, so the output location
is a function of the dependency name alone; the two aggregate files
follow. -/
theorem C3_per_dependency_file_paths (fs : FS) (w : Bool) (c : Conanfile)
    (h : (generate fs w c).error = none) :
    (generate fs w c).files.map Prod.fst
      = c.direct_build.map (depBuildfilePath c.generators_folder)
        ++ (c.host.filter (hostKept fs w)).map (depBuildfilePath c.generators_folder)
        ++ [c.generators_folder ++ "/BUILD",
            c.generators_folder ++ "/dependencies.bzl"] := by
  obtain ⟨hb, hh⟩ := generate_ok_parts fs w c h
  rw [generate_ok_files fs w c h]
  simp only [List.map_append]
  rw [processBuildDeps_files_of_ok c.generators_folder c.direct_build hb,
    processHostDeps_files_of_ok fs w c.generators_folder c.host hh,
    filterMap_hostFileOf_fst fs w c.generators_folder c.host]
  simp [List.map_map, Function.comp]

/-- Counterexample to C3 as stated: cfC3 has one (host) dependency named
skipped, but the successful run writes no per-dependency BUILD file at
out/skipped/BUILD — only the two aggregate files appear. -/
theorem C3_counterexample :
    (generate (fun _ => none) false cfC3).error = none
    ∧ (generate (fun _ => none) false cfC3).files.map Prod.fst
        = ["out/BUILD", "out/dependencies.bzl"] := by
  constructor <;> rfl

/-- Witness for C3 on a concrete successful run. -/
theorem C3_witness :
    (generate fsC4 false cfC4).files.map Prod.fst
      = cfC4.direct_build.map (depBuildfilePath "g")
        ++ (cfC4.host.filter (hostKept fsC4 false)).map (depBuildfilePath "g")
        ++ ["g" ++ "/BUILD", "g" ++ "/dependencies.bzl"] :=
  C3_per_dependency_file_paths fsC4 false cfC4 (by rfl)

/-- C8 (confirmed): a successful run ends by writing exactly two
aggregate files into the generators folder — an empty BUILD file and
dependencies.bzl holding the load_conan_dependencies function built from
the collected snippets, one snippet per per-dependency file written (two
more files than snippets in total); with no snippets the function body is
the single statement pass. -/
theorem C8_aggregate_files :
    (∀ (fs : FS) (w : Bool) (c : Conanfile), (generate fs w c).error = none →
      (generate fs w c).files
        = (processBuildDeps c.generators_folder c.direct_build).files
          ++ (processHostDeps fs w c.generators_folder c.host).files
          ++ [(c.generators_folder ++ "/BUILD", ""),
              (c.generators_folder ++ "/dependencies.bzl",
               getMainBuildfileContent ((generate fs w c).snippets))]
      ∧ (generate fs w c).files.length = (generate fs w c).snippets.length + 2)
    ∧ getMainBuildfileContent [] = "\ndef load_conan_dependencies():\n        pass\n" := by
  constructor
  · intro fs w c h
    obtain ⟨hb, hh⟩ := generate_ok_parts fs w c h
    constructor
    · rw [generate_ok_files fs w c h, generate_ok_snippets fs w c h]
    · rw [generate_ok_files fs w c h, generate_ok_snippets fs w c h]
      simp [processBuildDeps_length_of_ok c.generators_folder c.direct_build hb,
        processHostDeps_length_of_ok fs w c.generators_folder c.host hh]
      omega
  · rfl

/-- Witness for C8 on a concrete successful run with one kept host
dependency. -/
theorem C8_witness :
    (generate (fun _ => none) false cfC8).files
      = (processBuildDeps "o8" cfC8.direct_build).files
        ++ (processHostDeps (fun _ => none) false "o8" cfC8.host).files
        ++ [("o8" ++ "/BUILD", ""),
            ("o8" ++ "/dependencies.bzl",
             getMainBuildfileContent ((generate (fun _ => none) false cfC8).snippets))]
    ∧ (generate (fun _ => none) false cfC8).files.length
      = (generate (fun _ => none) false cfC8).snippets.length + 2 :=
  C8_aggregate_files.1 (fun _ => none) false cfC8 (by rfl)

end BazelDeps
